import Mathlib

/-!
Shallow embedding of the HypnoS evaluation core (evaluate.cpp,
nnue/evaluate_nnue.cpp, nnue/nnue_common.h, nnue/features/half_ka_v2_hm.*),
with theorems settling the specification claims about it.

C++ `int` arithmetic is modelled over `Int` (exact; the engine's values stay
far from 32-bit overflow), with C++ `/` (truncation toward zero) rendered as
`Int.tdiv` and `std::clamp`/`std::abs` made explicit.
-/

namespace HypnoS

/-- The two chess colors, `types.h` enum `Color { WHITE, BLACK }`. -/
inductive Color : Type
  | WHITE : Color
  | BLACK : Color
deriving DecidableEq, Repr

open Color

/-- C++ `operator~(Color)`: flips `WHITE` and `BLACK`. -/
def flipColor : Color → Color
  | WHITE => BLACK
  | BLACK => WHITE

/-- Modelled from the spec: `PawnValue` lives in `types.h`, which is not under
`src/`; the standard Stockfish-family pawn value used by the material formula. -/
def PawnValue : Int := 208

/-- Modelled from the spec: the tablebase sentinel bounds live in `types.h`,
which is not under `src/`. `VALUE_TB_WIN_IN_MAX_PLY` in the Stockfish family is
`VALUE_MATE (32000) - MAX_PLY (246) - 1 - MAX_PLY (246) = 31507`; the reserved
tablebase band lies outside the open interval between the two bounds. -/
def VALUE_TB_WIN_IN_MAX_PLY : Int := 31507

/-- Modelled from the spec: mirror bound of the reserved tablebase band,
`-VALUE_TB_WIN_IN_MAX_PLY` in `types.h` (not under `src/`). -/
def VALUE_TB_LOSS_IN_MAX_PLY : Int := -31507

/-- `std::clamp(v, lo, hi)` on integers: `lo` if `v < lo`, `hi` if `hi < v`,
otherwise `v`. -/
def clampInt (v lo hi : Int) : Int :=
  if v < lo then lo else if hi < v then hi else v

/-- The slice of `Position` (plus its thread) that `Eval::simple_eval` and
`Eval::evaluate` read: `count<PAWN>(c)`, `non_pawn_material(c)`,
`side_to_move()`, `rule50_count()` and `this_thread()->optimism[c]`. -/
structure Position where
  stm : Color
  pawnCount : Color → Int
  nonPawnMaterial : Color → Int
  rule50 : Int
  optimism : Color → Int

/-- `Eval::simple_eval(pos, c)` (evaluate.cpp:174-177):
`PawnValue * (pos.count<PAWN>(c) - pos.count<PAWN>(~c))
 + (pos.non_pawn_material(c) - pos.non_pawn_material(~c))`. -/
def simple_eval (pos : Position) (c : Color) : Int :=
  PawnValue * (pos.pawnCount c - pos.pawnCount (flipColor c))
    + (pos.nonPawnMaterial c - pos.nonPawnMaterial (flipColor c))

/-- The local variable `v` of `Eval::evaluate` (evaluate.cpp:186-211) as it
stands just before the rule-50 damping: the material estimate on the lazy
path (`|simpleEval| > 2700`), the optimism/complexity blend of the network
output otherwise. The two quantized networks are opaque externally-produced
parameters; the call `NNUE::evaluate<Small/Big>(pos, true, &nnueComplexity)`
is abstracted as a function `net : Bool → Int × Int` from the `smallNet` flag
to the returned `(nnue, nnueComplexity)` pair. All other arithmetic follows
the source line by line, `Int.tdiv` standing for C++ truncated division. -/
def evaluate_v (pos : Position) (net : Bool → Int × Int) : Int :=
  let stm := pos.stm
  let simpleEval := simple_eval pos stm
  let lazy := 2700 < |simpleEval|
  if lazy then simpleEval
  else
    let smallNet := 1050 < |simpleEval|
    let nnue0 := (net smallNet).1
    let nnueComplexity := (net smallNet).2
    let optimism0 := pos.optimism stm
    let optimism1 :=
      optimism0 + Int.tdiv (optimism0 * (nnueComplexity + |simpleEval - nnue0|)) 512
    let nnue1 :=
      nnue0 - Int.tdiv (nnue0 * (nnueComplexity + |simpleEval - nnue0|)) 32768
    let npm := Int.tdiv (pos.nonPawnMaterial WHITE + pos.nonPawnMaterial BLACK) 64
    Int.tdiv
      (nnue1 * (915 + npm + 9 * (pos.pawnCount WHITE + pos.pawnCount BLACK))
        + optimism1 * (154 + npm)) 1024

/-- `Eval::evaluate(pos)` (evaluate.cpp:182-220): the blended value `v`
(`evaluate_v`), damped linearly by the 50-move counter
(`v = v * (200 - shuffling) / 214`), then clamped into
`[VALUE_TB_LOSS_IN_MAX_PLY + 1, VALUE_TB_WIN_IN_MAX_PLY - 1]`. -/
def evaluate (pos : Position) (net : Bool → Int × Int) : Int :=
  let shuffling := pos.rule50
  let v1 := Int.tdiv (evaluate_v pos net * (200 - shuffling)) 214
  clampInt v1 (VALUE_TB_LOSS_IN_MAX_PLY + 1) (VALUE_TB_WIN_IN_MAX_PLY - 1)

end HypnoS

namespace HypnoS

/-- A concrete position with a decisive material advantage for the side to
move: white to move, no pawns, `non_pawn_material(WHITE) = 2750`, everything
else zero, so `simple_eval = 2750 > 2700`. -/
def lazyPos : Position where
  stm := Color.WHITE
  pawnCount := fun _ => 0
  nonPawnMaterial := fun c => match c with
    | Color.WHITE => 2750
    | Color.BLACK => 0
  rule50 := 0
  optimism := fun _ => 0

/-- A network stub for exercising `evaluate` at concrete inputs (the lazy
path never consults it). -/
def zeroNet : Bool → Int × Int := fun _ => (0, 0)

end HypnoS

namespace HypnoS

/-- A second network stub, disagreeing with `zeroNet` everywhere, used to
exhibit that the lazy path never consults the network. -/
def bigNet : Bool → Int × Int := fun _ => (500, 9)

/-- Helper: `simple_eval lazyPos WHITE = 2750`. -/
theorem simple_eval_lazyPos : simple_eval lazyPos Color.WHITE = 2750 := by
  decide

/-- Helper: `clampInt` stays inside `[lo, hi]` whenever `lo ≤ hi`. -/
theorem clampInt_mem (v lo hi : Int) (h : lo ≤ hi) :
    lo ≤ clampInt v lo hi ∧ clampInt v lo hi ≤ hi := by
  unfold clampInt
  split
  · exact ⟨le_refl lo, h⟩
  · split
    · exact ⟨h, le_refl hi⟩
    · omega

/-- C10: for every position and every color `c`, the material-only estimate is
antisymmetric in the color argument:
`simple_eval(pos, c) == -simple_eval(pos, ~c)`. -/
theorem simple_eval_antisymmetric (pos : Position) (c : Color) :
    simple_eval pos c = -simple_eval pos (flipColor c) := by
  cases c <;> simp [simple_eval, flipColor] <;> ring

/-- C3: for every position (and any network outputs), `Eval::evaluate` returns
a value strictly between the tablebase sentinel bounds
`VALUE_TB_LOSS_IN_MAX_PLY` and `VALUE_TB_WIN_IN_MAX_PLY`. -/
theorem evaluate_outside_tb_band (pos : Position) (net : Bool → Int × Int) :
    VALUE_TB_LOSS_IN_MAX_PLY < evaluate pos net ∧
      evaluate pos net < VALUE_TB_WIN_IN_MAX_PLY := by
  have h := clampInt_mem (Int.tdiv (evaluate_v pos net * (200 - pos.rule50)) 214)
    (VALUE_TB_LOSS_IN_MAX_PLY + 1) (VALUE_TB_WIN_IN_MAX_PLY - 1) (by decide)
  unfold evaluate
  simp only []
  unfold VALUE_TB_LOSS_IN_MAX_PLY VALUE_TB_WIN_IN_MAX_PLY at h ⊢
  omega

/-- C1 (counterexample to the claim as stated): on `lazyPos` the
material-only estimate is `2750 > 2700`, yet `Eval::evaluate` does not return
it exactly — the rule-50 damping `v * (200 - 0) / 214` turns `2750` into
`2570`. -/
theorem evaluate_lazy_not_exact :
    2700 < |simple_eval lazyPos lazyPos.stm| ∧
      evaluate lazyPos zeroNet ≠ simple_eval lazyPos lazyPos.stm := by
  decide

/-- C1 (amended): when `|simple_eval| > 2700` the network is skipped
entirely — the result does not depend on the network outputs — and
`Eval::evaluate` returns the material estimate subjected only to the final
rule-50 damping and tablebase clamp (not the material formula exactly). -/
theorem evaluate_lazy_short_circuit (pos : Position) (f g : Bool → Int × Int)
    (h : 2700 < |simple_eval pos pos.stm|) :
    evaluate pos f =
      clampInt (Int.tdiv (simple_eval pos pos.stm * (200 - pos.rule50)) 214)
        (VALUE_TB_LOSS_IN_MAX_PLY + 1) (VALUE_TB_WIN_IN_MAX_PLY - 1) ∧
      evaluate pos f = evaluate pos g := by
  have hv : ∀ n : Bool → Int × Int, evaluate_v pos n = simple_eval pos pos.stm := by
    intro n
    unfold evaluate_v
    simp only [if_pos h]
  constructor
  · unfold evaluate
    rw [hv f]
  · unfold evaluate
    rw [hv f, hv g]

/-- Witness for C1 (amended) at the concrete position `lazyPos` with the two
disagreeing network stubs. -/
theorem evaluate_lazy_short_circuit_witness :
    evaluate lazyPos zeroNet =
      clampInt (Int.tdiv (simple_eval lazyPos lazyPos.stm * (200 - lazyPos.rule50)) 214)
        (VALUE_TB_LOSS_IN_MAX_PLY + 1) (VALUE_TB_WIN_IN_MAX_PLY - 1) ∧
      evaluate lazyPos zeroNet = evaluate lazyPos bigNet :=
  evaluate_lazy_short_circuit lazyPos zeroNet bigNet (by decide)

end HypnoS

namespace HypnoS

/-! ## Feature set HalfKAv2_hm (nnue/features/half_ka_v2_hm.h / .cpp) -/

/-- Modelled from the spec: piece and piece-type codes live in `types.h`,
which is not under `src/`. Standard Stockfish-family encoding: piece types
`PAWN = 1 .. KING = 6`, and `make_piece(c, pt) = (c << 3) + pt`. -/
def colorIdx : Color → Nat
  | Color.WHITE => 0
  | Color.BLACK => 1

/-- Piece type `KING` (= 6) from the `types.h` encoding. -/
def KING : Nat := 6

/-- `make_piece(c, pt) = (c << 3) + pt` (`types.h`, not under `src/`). -/
def make_piece (c : Color) (pt : Nat) : Nat := 8 * colorIdx c + pt

/-- Modelled from the spec: the change record (`DirtyPiece`, declared in the
board collaborator's `types.h`, not under `src/`): up to three entries of
(piece, from-square, to-square), plus their count. Squares and pieces use the
`types.h` integer codes; `64` stands for `SQ_NONE`. -/
structure DirtyPiece where
  dirty_num : Int
  piece : Fin 3 → Nat
  fromSq : Fin 3 → Nat
  toSq : Fin 3 → Nat

/-- The slice of `StateInfo` (position.h:41-79) read by
`HalfKAv2_hm::requires_refresh`: the `dirtyPiece` change record. -/
structure StateInfo where
  dirtyPiece : DirtyPiece

/-- `HalfKAv2_hm::requires_refresh(st, perspective)`
(half_ka_v2_hm.cpp:108-110):
`st->dirtyPiece.piece[0] == make_piece(perspective, KING)`. -/
def requires_refresh (st : StateInfo) (perspective : Color) : Bool :=
  st.dirtyPiece.piece 0 == make_piece perspective KING

/-- C4: `requires_refresh(st, perspective)` returns true if and only if the
first dirty entry's moved piece is that perspective's king. -/
theorem requires_refresh_iff_king (st : StateInfo) (perspective : Color) :
    requires_refresh st perspective = true ↔
      st.dirtyPiece.piece 0 = make_piece perspective KING := by
  simp [requires_refresh]

/-- `PS_NB = 11 * SQUARE_NB = 704` (half_ka_v2_hm.h:47-61). -/
def PS_NB : Nat := 704

/-- `HalfKAv2_hm::PieceSquareIndex` (half_ka_v2_hm.h:63-69), indexed by
perspective then piece code; entries are the `PS_*` offsets. -/
def PieceSquareIndex : Color → List Nat
  | Color.WHITE =>
      [0, 0, 2 * 64, 4 * 64, 6 * 64, 8 * 64, 10 * 64, 0,
       0, 1 * 64, 3 * 64, 5 * 64, 7 * 64, 9 * 64, 10 * 64, 0]
  | Color.BLACK =>
      [0, 1 * 64, 3 * 64, 5 * 64, 7 * 64, 9 * 64, 10 * 64, 0,
       0, 0, 2 * 64, 4 * 64, 6 * 64, 8 * 64, 10 * 64, 0]

/-- `HalfKAv2_hm::KingBuckets` (half_ka_v2_hm.h:89-106), indexed by
perspective then king square; `B(v) = v * PS_NB`. -/
def KingBuckets : Color → List Nat
  | Color.WHITE =>
      ([28, 29, 30, 31, 31, 30, 29, 28,
        24, 25, 26, 27, 27, 26, 25, 24,
        20, 21, 22, 23, 23, 22, 21, 20,
        16, 17, 18, 19, 19, 18, 17, 16,
        12, 13, 14, 15, 15, 14, 13, 12,
         8,  9, 10, 11, 11, 10,  9,  8,
         4,  5,  6,  7,  7,  6,  5,  4,
         0,  1,  2,  3,  3,  2,  1,  0].map (· * PS_NB))
  | Color.BLACK =>
      ([ 0,  1,  2,  3,  3,  2,  1,  0,
         4,  5,  6,  7,  7,  6,  5,  4,
         8,  9, 10, 11, 11, 10,  9,  8,
        12, 13, 14, 15, 15, 14, 13, 12,
        16, 17, 18, 19, 19, 18, 17, 16,
        20, 21, 22, 23, 23, 22, 21, 20,
        24, 25, 26, 27, 27, 26, 25, 24,
        28, 29, 30, 31, 31, 30, 29, 28].map (· * PS_NB))

/-- `HalfKAv2_hm::OrientTBL` (half_ka_v2_hm.h:111-128), indexed by perspective
then king square; entries are the squares `SQ_A1 = 0`, `SQ_H1 = 7`,
`SQ_A8 = 56`, `SQ_H8 = 63`. -/
def OrientTBL : Color → List Nat
  | Color.WHITE =>
      [7, 7, 7, 7, 0, 0, 0, 0,
       7, 7, 7, 7, 0, 0, 0, 0,
       7, 7, 7, 7, 0, 0, 0, 0,
       7, 7, 7, 7, 0, 0, 0, 0,
       7, 7, 7, 7, 0, 0, 0, 0,
       7, 7, 7, 7, 0, 0, 0, 0,
       7, 7, 7, 7, 0, 0, 0, 0,
       7, 7, 7, 7, 0, 0, 0, 0]
  | Color.BLACK =>
      [63, 63, 63, 63, 56, 56, 56, 56,
       63, 63, 63, 63, 56, 56, 56, 56,
       63, 63, 63, 63, 56, 56, 56, 56,
       63, 63, 63, 63, 56, 56, 56, 56,
       63, 63, 63, 63, 56, 56, 56, 56,
       63, 63, 63, 63, 56, 56, 56, 56,
       63, 63, 63, 63, 56, 56, 56, 56,
       63, 63, 63, 63, 56, 56, 56, 56]

/-- `HalfKAv2_hm::Dimensions = SQUARE_NB * PS_NB / 2` (half_ka_v2_hm.h:84-85). -/
def Dimensions : Nat := 64 * PS_NB / 2

/-- `HalfKAv2_hm::make_index_not_cached(Perspective, s, pc, ksq)`
(half_ka_v2_hm.cpp:53-55):
`(s ^ OrientTBL[Perspective][ksq]) + PieceSquareIndex[Perspective][pc]
 + KingBuckets[Perspective][ksq]`. -/
def make_index_not_cached (perspective : Color) (s : Nat) (pc : Nat) (ksq : Nat) : Nat :=
  (s ^^^ (OrientTBL perspective).getD ksq 0)
    + (PieceSquareIndex perspective).getD pc 0
    + (KingBuckets perspective).getD ksq 0

/-- The twelve real piece codes of the `types.h` encoding: white pieces
`1..6`, black pieces `9..14`. -/
def realPieces : List Nat := [1, 2, 3, 4, 5, 6, 9, 10, 11, 12, 13, 14]

/-- Helper: a `getD`-lookup in a list all of whose entries are below `b`
stays below `b` (with default `0`, requiring `0 < b`). -/
theorem getD_lt_of_all {l : List Nat} {b : Nat} (hall : ∀ x ∈ l, x < b)
    (hb : 0 < b) : ∀ i, l.getD i 0 < b := by
  induction l with
  | nil => intro i; simpa using hb
  | cons a t ih =>
      intro i
      cases i with
      | zero => simpa using hall a (by simp)
      | succ j =>
          rw [List.getD_cons_succ]
          exact ih (fun x hx => hall x (by simp [hx])) j

/-- C7: for every perspective, square, king square and real piece code, the
feature index computed by `make_index_not_cached` is strictly below
`Dimensions = 64 * 704 / 2 = 22528`. -/
theorem make_index_lt_dimensions (perspective : Color) (s pc ksq : Nat)
    (hs : s < 64) (hksq : ksq < 64) (hpc : pc ∈ realPieces) :
    make_index_not_cached perspective s pc ksq < Dimensions := by
  have horient : (OrientTBL perspective).getD ksq 0 < 64 := by
    cases perspective <;> exact getD_lt_of_all (by decide) (by decide) ksq
  have hxor : s ^^^ (OrientTBL perspective).getD ksq 0 < 64 := by
    have e : (64 : Nat) = 2 ^ 6 := by norm_num
    rw [e] at hs horient ⊢
    exact Nat.xor_lt_two_pow hs horient
  have hpsi : (PieceSquareIndex perspective).getD pc 0 < 641 := by
    cases perspective <;> exact getD_lt_of_all (by decide) (by decide) pc
  have hkb : (KingBuckets perspective).getD ksq 0 < 21825 := by
    cases perspective <;> exact getD_lt_of_all (by decide) (by decide) ksq
  unfold make_index_not_cached Dimensions PS_NB
  omega

/-- Witness for C7 at the white perspective, square a1, piece `W_KING` (6),
king square h8. -/
theorem make_index_lt_dimensions_witness :
    (0 : Nat) < 64 ∧ (63 : Nat) < 64 ∧ (6 : Nat) ∈ realPieces ∧
      make_index_not_cached Color.WHITE 0 6 63 < Dimensions :=
  ⟨by decide, by decide, by decide,
    make_index_lt_dimensions Color.WHITE 0 6 63 (by decide) (by decide) (by decide)⟩

end HypnoS

namespace HypnoS.NNUE

/-! ## Parameter Store (nnue/evaluate_nnue.cpp, nnue/nnue_common.h)

Byte streams are `List Nat` with entries below 256. The little-endian codec
is `read_little_endian` / `write_little_endian` from nnue_common.h; the
network parameter arrays of the feature transformer and the layer stacks are
held as lists of signed 16-bit integers. -/

/-- `write_little_endian<uint32_t>` (nnue_common.h:120-144): the four bytes
of `v`, least significant first. -/
def wle32 (v : Nat) : List Nat :=
  [v % 256, v / 256 % 256, v / 256 / 256 % 256, v / 256 / 256 / 256 % 256]

/-- `read_little_endian<uint32_t>` (nnue_common.h:94-113): consume four bytes
(least significant first); a shorter stream puts the stream in a failed
state, modelled as `none`. -/
def rle32 : List Nat → Option (Nat × List Nat)
  | b0 :: b1 :: b2 :: b3 :: rest => some (b0 + 256 * b1 + 65536 * b2 + 16777216 * b3, rest)
  | _ => none

/-- `write_little_endian<int16_t>`: the two bytes of the value's 16-bit
two's-complement representation, least significant first. -/
def wle16 (v : Int) : List Nat :=
  [(v % 65536).toNat % 256, (v % 65536).toNat / 256]

/-- `read_little_endian<int16_t>`: two bytes, reassembled and re-signed. -/
def rle16 : List Nat → Option (Int × List Nat)
  | b0 :: b1 :: rest =>
      let n := b0 + 256 * b1
      some (if n < 32768 then (n : Int) else (n : Int) - 65536, rest)
  | _ => none

/-- A parameter array written value by value in index order (the bulk
`write_little_endian(stream, values, count)` of nnue_common.h:161-168). -/
def wle16s : List Int → List Nat
  | [] => []
  | v :: vs => wle16 v ++ wle16s vs

/-- A parameter array read value by value (the bulk
`read_little_endian(stream, out, count)` of nnue_common.h:149-156). -/
def rle16s : Nat → List Nat → Option (List Int × List Nat)
  | 0, s => some ([], s)
  | Nat.succ k, s =>
      match rle16 s with
      | none => none
      | some (v, s1) =>
          match rle16s k s1 with
          | none => none
          | some (vs, s2) => some (v :: vs, s2)

/-- `Version` (nnue_common.h:55). -/
def Version : Nat := 0x7AF32F20

/-- Modelled from the spec: `FeatureTransformer::get_hash_value()` is computed
in `nnue_feature_transformer.h`, which is not under `src/`, from the feature
set hash `0x7f234cb8` (half_ka_v2_hm.h:81) and the transformed-feature width.
Only its role as an equality token between writer and reader matters here, so
it is represented by the feature-set hash. -/
def FTHash (_small : Bool) : Nat := 0x7f234cb8

/-- Modelled from the spec: `Network::get_hash_value()` lives in
`nnue_architecture.h`, which is not under `src/`; an equality token between
writer and reader. -/
def NetHash (_small : Bool) : Nat := 0xCC03DAE4

/-- `HashValue[2]` (evaluate_nnue.h:45-49): per network size, the XOR of the
feature transformer's and the layer stack's structural hashes — here the
precomputed literal `0x7f234cb8 XOR 0xCC03DAE4 = 0xb320965c` (kept as a
numeral so proofs can evaluate it); like its operands it serves only as an
equality token between writer and reader. -/
def HashValue (_small : Bool) : Nat := 0xb320965c

/-- Helper: `FTHash` as a numeral (for reductions in proofs). -/
theorem FTHash_eq (small : Bool) : FTHash small = 2133019832 := rfl

/-- Helper: `NetHash` as a numeral. -/
theorem NetHash_eq (small : Bool) : NetHash small = 3422804708 := rfl

/-- Helper: `HashValue` as a numeral. -/
theorem HashValue_eq (small : Bool) : HashValue small = 3005257308 := rfl

/-- Modelled from the spec: `LayerStacks` (one layer-stack instance per
material bucket) is defined in `nnue_architecture.h`, not under `src/`; the
Stockfish-family value is 8. -/
def LayerStacks : Nat := 8

/-- The per-size global state of the Parameter Store (evaluate_nnue.cpp:44-55):
the feature transformer's parameters, the `LayerStacks` layer-stack
parameters, `fileName[small]` and `netDescription[small]`. Parameter arrays
are lists of signed 16-bit values; their lengths `ftLen`/`netLen` are kept
generic (the concrete widths live in the architecture header, not under
`src/`). -/
structure NetState where
  fileName : String
  netDescription : List Nat
  ft : List Int
  nets : List (List Int)

/-- `initialize(small)` (evaluate_nnue.cpp:99-113): allocate and zero the
feature transformer and every layer stack of that size
(`Detail::initialize` memsets the fresh storage to zero). -/
def initializeNet (ftLen netLen : Nat) (st : NetState) : NetState :=
  { st with
      ft := List.replicate ftLen 0
      nets := List.replicate LayerStacks (List.replicate netLen 0) }

/-- `read_header` (evaluate_nnue.cpp:116-127): read version, hash and
description length, reject on stream failure or version mismatch (the
description is untouched then, `.1 = none`); otherwise read that many
description bytes (C++ `resize` zero-fills, so a truncated description comes
back zero-padded with the read failing, `.2 = none`). Returns the
description update and, on success, the hash and the remaining stream. -/
def read_header (stream : List Nat) : Option (List Nat) × Option (Nat × List Nat) :=
  match rle32 stream with
  | none => (none, none)
  | some (version, s1) =>
      match rle32 s1 with
      | none => (none, none)
      | some (hash, s2) =>
          match rle32 s2 with
          | none => (none, none)
          | some (size, s3) =>
              if version ≠ Version then (none, none)
              else
                let desc := s3.take size ++ List.replicate (size - s3.length) 0
                if size ≤ s3.length then (some desc, some (hash, s3.drop size))
                else (some desc, none)

/-- `write_header` (evaluate_nnue.cpp:130-136): version, hash, description
length, description bytes. -/
def write_header (hashValue : Nat) (desc : List Nat) : List Nat :=
  wle32 Version ++ wle32 hashValue ++ wle32 desc.length ++ desc

/-- `Detail::read_parameters` (evaluate_nnue.cpp:77-85): a 4-byte little
endian sub-header that must equal the component's structural hash, then the
component's parameter stream. Modelled from the spec: the component
`read_parameters` bodies live in `nnue_feature_transformer.h` /
`nnue_architecture.h` (not under `src/`); their parameter streams are
modelled as `len` little-endian signed 16-bit values, read all-or-nothing. -/
def detail_read (cHash len : Nat) (stream : List Nat) : Option (List Int × List Nat) :=
  match rle32 stream with
  | none => none
  | some (h, s1) => if h ≠ cHash then none else rle16s len s1

/-- `Detail::write_parameters` (evaluate_nnue.cpp:88-93): the component's
structural hash, then its parameter stream. -/
def detail_write (cHash : Nat) (ps : List Int) : List Nat :=
  wle32 cHash ++ wle16s ps

/-- The layer-stack loop of `read_parameters` (evaluate_nnue.cpp:150-156):
`count` successive `Detail::read_parameters` of the per-bucket networks. -/
def detail_read_nets (cHash len : Nat) : Nat → List Nat → Option (List (List Int) × List Nat)
  | 0, s => some ([], s)
  | Nat.succ k, s =>
      match detail_read cHash len s with
      | none => none
      | some (p, s1) =>
          match detail_read_nets cHash len k s1 with
          | none => none
          | some (ps, s2) => some (p :: ps, s2)

/-- The layer-stack loop of `write_parameters` (evaluate_nnue.cpp:169-175). -/
def write_nets (cHash : Nat) : List (List Int) → List Nat
  | [] => []
  | n :: ns => detail_write cHash n ++ write_nets cHash ns

/-- `read_parameters(stream, small)` (evaluate_nnue.cpp:139-158): header
(writing `netDescription[small]`), `HashValue[small]` check, feature
transformer, the `LayerStacks` networks, then the end-of-stream check
(`stream.peek() == eof`). The state is updated as far as reading got;
the Bool is the return value. -/
def read_parameters (small : Bool) (ftLen netLen : Nat) (stream : List Nat)
    (st : NetState) : NetState × Bool :=
  match read_header stream with
  | (descUpd, headerRes) =>
      let st1 :=
        match descUpd with
        | none => st
        | some d => { st with netDescription := d }
      match headerRes with
      | none => (st1, false)
      | some (hashValue, s1) =>
          if hashValue ≠ HashValue small then (st1, false)
          else
            match detail_read (FTHash small) ftLen s1 with
            | none => (st1, false)
            | some (ftp, s2) =>
                let st2 := { st1 with ft := ftp }
                match detail_read_nets (NetHash small) netLen LayerStacks s2 with
                | none => (st2, false)
                | some (ps, s3) =>
                    let st3 := { st2 with nets := ps }
                    (st3, s3.isEmpty)

/-- `write_parameters(stream, small)` (evaluate_nnue.cpp:161-177): header with
`HashValue[small]` and `netDescription[small]`, feature transformer, then the
`LayerStacks` networks (the in-memory stream never fails, so the produced
bytes are returned). -/
def write_parameters (small : Bool) (st : NetState) : List Nat :=
  write_header (HashValue small) st.netDescription
    ++ detail_write (FTHash small) st.ft
    ++ write_nets (NetHash small) st.nets

/-- `load_eval(name, stream, small)` (evaluate_nnue.cpp:422-427):
zero-initialize that size's parameters, record the file name, then read. -/
def load_eval (small : Bool) (ftLen netLen : Nat) (name : String)
    (stream : List Nat) (st : NetState) : NetState × Bool :=
  let st1 := initializeNet ftLen netLen st
  let st2 := { st1 with fileName := name }
  read_parameters small ftLen netLen stream st2

/-- `save_eval(stream, small)` (evaluate_nnue.cpp:430-436): refuse (writing
nothing) when no file name is recorded for that size, else write. Result is
(return value, bytes written to the stream). -/
def save_eval (small : Bool) (st : NetState) : Bool × List Nat :=
  if st.fileName = "" then (false, [])
  else (true, write_parameters small st)

end HypnoS.NNUE

namespace HypnoS.NNUE

/-- Helper: the little-endian uint32 codec round-trips on any value below
`2^32`, leaving the rest of the stream untouched. -/
theorem rle32_wle32 (v : Nat) (hv : v < 4294967296) (r : List Nat) :
    rle32 (wle32 v ++ r) = some (v, r) := by
  simp only [wle32, List.cons_append, List.nil_append, rle32, Option.some.injEq,
    Prod.mk.injEq]
  exact ⟨by omega, trivial⟩

/-- Helper: the little-endian int16 codec round-trips on any representable
value. -/
theorem rle16_wle16 (v : Int) (h1 : -32768 ≤ v) (h2 : v < 32768) (r : List Nat) :
    rle16 (wle16 v ++ r) = some (v, r) := by
  simp only [wle16, List.cons_append, List.nil_append, rle16, Option.some.injEq,
    Prod.mk.injEq]
  constructor
  · split <;> omega
  · trivial

/-- Helper: the int16 bulk codec round-trips on any list of representable
values. -/
theorem rle16s_wle16s (vs : List Int) (h : ∀ v ∈ vs, -32768 ≤ v ∧ v < 32768)
    (r : List Nat) : rle16s vs.length (wle16s vs ++ r) = some (vs, r) := by
  induction vs generalizing r with
  | nil => simp [wle16s, rle16s]
  | cons v vs ih =>
      have hv := h v (by simp)
      simp only [wle16s, List.length_cons, List.append_assoc, rle16s]
      rw [rle16_wle16 v hv.1 hv.2]
      dsimp only
      rw [ih (fun x hx => h x (by simp [hx])) r]

end HypnoS.NNUE

namespace HypnoS.NNUE

/-- Helper: `read_header` round-trips on a stream produced by `write_header`
(description length below `2^32`): the description is written back and the
hash and the remaining stream are returned. -/
theorem read_header_write_header (hv : Nat) (hhv : hv < 4294967296)
    (desc : List Nat) (hd : desc.length < 4294967296) (r : List Nat) :
    read_header (write_header hv desc ++ r) = (some desc, some (hv, r)) := by
  unfold write_header read_header
  simp only [List.append_assoc]
  rw [rle32_wle32 Version (by decide) _]
  dsimp only
  rw [rle32_wle32 hv hhv _]
  dsimp only
  rw [rle32_wle32 desc.length hd _]
  dsimp only
  rw [if_neg (by simp)]
  rw [List.take_left, List.drop_left]
  have hz : desc.length - (desc ++ r).length = 0 := by
    simp
  rw [hz]
  simp

/-- Helper: a component stream produced by `detail_write` is read back
verbatim by `detail_read` (hash below `2^32`, values representable). -/
theorem detail_read_detail_write (cHash : Nat) (hch : cHash < 4294967296)
    (ps : List Int) (h : ∀ v ∈ ps, -32768 ≤ v ∧ v < 32768) (r : List Nat) :
    detail_read cHash ps.length (detail_write cHash ps ++ r) = some (ps, r) := by
  unfold detail_write detail_read
  simp only [List.append_assoc]
  rw [rle32_wle32 cHash hch _]
  dsimp only
  rw [if_neg (by simp)]
  exact rle16s_wle16s ps h r

/-- Helper: the layer-stack loop reads back exactly the networks the writing
loop produced. -/
theorem detail_read_nets_write_nets (cHash netLen : Nat) (hch : cHash < 4294967296)
    (ns : List (List Int))
    (h : ∀ n ∈ ns, n.length = netLen ∧ ∀ v ∈ n, -32768 ≤ v ∧ v < 32768)
    (r : List Nat) :
    detail_read_nets cHash netLen ns.length (write_nets cHash ns ++ r) = some (ns, r) := by
  induction ns generalizing r with
  | nil => simp [write_nets, detail_read_nets]
  | cons n ns ih =>
      have hn := h n (by simp)
      simp only [write_nets, List.length_cons, List.append_assoc, detail_read_nets]
      have hdr := detail_read_detail_write cHash hch n hn.2 (write_nets cHash ns ++ r)
      rw [hn.1] at hdr
      rw [hdr]
      dsimp only
      rw [ih (fun x hx => h x (by simp [hx])) r]

end HypnoS.NNUE

namespace HypnoS.NNUE

/-- C5: saving a well-formed parameter set with `write_parameters` and loading
the produced byte stream back with `read_parameters` succeeds and reproduces
the description, feature-transformer parameters and every layer stack
bit-for-bit, whatever state the reader starts from. -/
theorem save_load_roundtrip (small : Bool) (netLen : Nat) (st st0 : NetState)
    (hft : ∀ v ∈ st.ft, -32768 ≤ v ∧ v < 32768)
    (hnl : st.nets.length = LayerStacks)
    (hnets : ∀ n ∈ st.nets, n.length = netLen ∧ ∀ v ∈ n, -32768 ≤ v ∧ v < 32768)
    (hd : st.netDescription.length < 4294967296) :
    read_parameters small st.ft.length netLen (write_parameters small st) st0 =
      ({ st0 with netDescription := st.netDescription, ft := st.ft,
                  nets := st.nets }, true) := by
  have hh : read_header (write_parameters small st) =
      (some st.netDescription,
        some ((3005257308 : Nat),
          detail_write 2133019832 st.ft ++ write_nets 3422804708 st.nets)) := by
    unfold write_parameters
    rw [List.append_assoc]
    rw [FTHash_eq, NetHash_eq, HashValue_eq]
    exact read_header_write_header 3005257308 (by decide) st.netDescription hd _
  have hdw : detail_read 2133019832 st.ft.length
      (detail_write 2133019832 st.ft ++ write_nets 3422804708 st.nets) =
      some (st.ft, write_nets 3422804708 st.nets) :=
    detail_read_detail_write 2133019832 (by decide) st.ft hft _
  have hnr := detail_read_nets_write_nets 3422804708 netLen (by decide) st.nets hnets []
  rw [List.append_nil] at hnr
  rw [hnl] at hnr
  unfold read_parameters
  simp only [FTHash_eq, NetHash_eq, HashValue_eq]
  rw [hh]
  dsimp only
  rw [hdw]
  dsimp only
  rw [hnr]
  rfl

/-- A well-formed concrete parameter set for exercising the round trip. -/
def rtState : NetState :=
  { fileName := "nn-test.nnue", netDescription := [65, 66], ft := [7, -3],
    nets := List.replicate 8 [120] }

/-- A distinct prior state the reader starts from in the round-trip witness. -/
def rtPrev : NetState :=
  { fileName := "nn-prev.nnue", netDescription := [1], ft := [9, 9],
    nets := List.replicate 8 [0] }

/-- Witness for C5 at the concrete parameter set `rtState`, read back over the
unrelated prior state `rtPrev`. -/
theorem save_load_roundtrip_witness :
    read_parameters false rtState.ft.length 1 (write_parameters false rtState) rtPrev =
      ({ rtPrev with netDescription := rtState.netDescription, ft := rtState.ft,
                     nets := rtState.nets }, true) :=
  save_load_roundtrip false 1 rtState rtPrev (by decide) (by decide) (by decide)
    (by decide)

end HypnoS.NNUE

namespace HypnoS.NNUE

/-- The stream-determined condition under which `read_parameters` rejects
before touching any parameter array: the header read fails (truncated stream,
truncated description, or version mismatch) or the content hash disagrees
with `HashValue[small]` (evaluate_nnue.cpp:139-145). -/
def header_rejects (small : Bool) (stream : List Nat) : Bool :=
  match read_header stream with
  | (_, none) => true
  | (_, some (hv, _)) => hv != HashValue small

/-- A previously loaded nonzero parameter set, about to suffer a failed
reload. -/
def prevState : NetState :=
  { fileName := "nn-old.nnue", netDescription := [], ft := [5],
    nets := List.replicate 8 [3] }

/-- C2 (counterexample to the claim as stated): reloading from an empty byte
stream fails (`load_eval` returns false), yet the previously loaded
parameters are NOT left as they were — `load_eval` zero-initializes the
storage before reading, so `ft` has become `[0]` instead of `[5]`. -/
theorem load_eval_not_atomic :
    (load_eval false 1 1 "nn-new.nnue" [] prevState).2 = false ∧
      (load_eval false 1 1 "nn-new.nnue" [] prevState).1.ft ≠ prevState.ft := by
  decide

/-- C2 (amended): a failed load does not preserve the previous parameters:
`load_eval` zero-initializes the storage for that size and records the new
file name before reading, so on any stream the header stage rejects
(truncation, version mismatch or hash mismatch) it returns false with the
parameter arrays equal to the zero state — whatever was loaded before is
destroyed. -/
theorem load_eval_zeroes_on_reject (small : Bool) (ftLen netLen : Nat)
    (name : String) (stream : List Nat) (st : NetState)
    (h : header_rejects small stream = true) :
    (load_eval small ftLen netLen name stream st).2 = false ∧
      (load_eval small ftLen netLen name stream st).1.ft = List.replicate ftLen 0 ∧
      (load_eval small ftLen netLen name stream st).1.nets =
        List.replicate LayerStacks (List.replicate netLen 0) ∧
      (load_eval small ftLen netLen name stream st).1.fileName = name := by
  unfold header_rejects at h
  unfold load_eval initializeNet read_parameters
  rcases hh : read_header stream with ⟨descUpd, headerRes⟩
  rw [hh] at h
  cases headerRes with
  | none =>
      cases descUpd <;> simp
  | some p =>
      rcases p with ⟨hv, s1⟩
      have hne : hv ≠ HashValue small := by simpa using h
      dsimp only
      rw [if_pos hne]
      cases descUpd <;> simp

/-- Witness for C2 (amended) at the concrete empty stream over `prevState`. -/
theorem load_eval_zeroes_on_reject_witness :
    (load_eval false 1 1 "nn-new.nnue" [] prevState).2 = false ∧
      (load_eval false 1 1 "nn-new.nnue" [] prevState).1.ft = List.replicate 1 0 ∧
      (load_eval false 1 1 "nn-new.nnue" [] prevState).1.nets =
        List.replicate LayerStacks (List.replicate 1 0) ∧
      (load_eval false 1 1 "nn-new.nnue" [] prevState).1.fileName = "nn-new.nnue" :=
  load_eval_zeroes_on_reject false 1 1 "nn-new.nnue" [] prevState (by decide)

/-- C9: for either network size, when no network has been loaded (the
recorded file name is empty) `save_eval` returns false and writes nothing to
the stream. -/
theorem save_eval_no_file (small : Bool) (st : NetState) (h : st.fileName = "") :
    save_eval small st = (false, []) := by
  unfold save_eval
  rw [if_pos h]

/-- A state with no recorded network file name. -/
def noFileState : NetState :=
  { fileName := "", netDescription := [], ft := [1], nets := [] }

/-- Witness for C9 at the concrete state `noFileState`. -/
theorem save_eval_no_file_witness :
    noFileState.fileName = "" ∧ save_eval false noFileState = (false, []) :=
  ⟨rfl, save_eval_no_file false noFileState rfl⟩

end HypnoS.NNUE

namespace HypnoS.NNUE

/-- `Leb128MagicStringSize` (nnue_common.h:65): 17 bytes, the NUL excluded. -/
def Leb128MagicStringSize : Nat := 17

/-- The bytes of `Leb128MagicString` = "COMPRESSED_LEB128" (nnue_common.h:64). -/
def Leb128MagicBytes : List Nat :=
  [67, 79, 77, 80, 82, 69, 83, 83, 69, 68, 95, 76, 69, 66, 49, 50, 56]

/-- The comparison performed by the `assert` at nnue_common.h:180
(`strncmp(Leb128MagicString, leb128MagicString, Leb128MagicStringSize) == 0`):
the stream's first 17 bytes equal the magic string. Checked only in debug
builds; release builds strip the assertion. -/
def leb_magic_ok (stream : List Nat) : Bool :=
  stream.take Leb128MagicStringSize == Leb128MagicBytes

/-- The sign interpretation of an accumulated `width`-bit pattern (the value
held in the C++ `IntType result`). -/
def toSigned (width : Nat) (n : Nat) : Int :=
  if n < 2 ^ (width - 1) then (n : Int) else (n : Int) - 2 ^ width

/-- The inner do-while of `read_leb_128` (nnue_common.h:194-214) decoding one
signed LEB128 value of `width` bits: accumulate 7 bits per byte
(`result |= (byte & 0x7f) << shift`), stop on a clear continuation bit with
sign extension (`result | ~((1 << shift) - 1)`, rendered as adding
`2^width - 2^shift` since the accumulator stays below `2^shift`), or when the
shift reaches the type width. Running out of bytes — a failed stream read in
C++ — and the loop ending with the continuation bit still set — which in C++
leaves `out[i]` unassigned — are modelled as `none`. `fuel` bounds the
recursion; the caller passes `width`, more than the `shift < width` guard
ever allows. -/
def leb_read_one (width : Nat) : Nat → List Nat → Nat → Nat → Option (Int × List Nat)
  | _, [], _, _ => none
  | fuel, byte :: rest, acc, shift =>
      let acc1 := acc + byte % 128 * 2 ^ shift
      let shift1 := shift + 7
      if byte % 256 < 128 then
        if width ≤ shift1 ∨ byte % 128 < 64 then
          some (toSigned width (acc1 % 2 ^ width), rest)
        else
          some (toSigned width ((acc1 + (2 ^ width - 2 ^ shift1)) % 2 ^ width), rest)
      else if shift1 < width then
        match fuel with
        | 0 => none
        | Nat.succ f => leb_read_one width f rest acc1 shift1
      else none

/-- The outer loop of `read_leb_128` (nnue_common.h:190-215): decode `count`
values in sequence. -/
def leb_read_list (width : Nat) : Nat → List Nat → Option (List Int × List Nat)
  | 0, s => some ([], s)
  | Nat.succ k, s =>
      match leb_read_one width width s 0 0 with
      | none => none
      | some (v, s1) =>
          match leb_read_list width k s1 with
          | none => none
          | some (vs, s2) => some (v :: vs, s2)

/-- `read_leb_128(stream, out, count)` (nnue_common.h:174-218) in release
semantics: consume the 17 magic bytes (their CONTENT is examined only by the
debug assertion `leb_magic_ok`), read the 4-byte compressed byte count, then
decode `count` values; the closing `assert(bytes_left == 0)` is likewise
debug-only. Stream exhaustion is `none`; the C++ function itself returns
`void` and reports no failure. -/
def read_leb_128 (width count : Nat) (stream : List Nat) : Option (List Int × List Nat) :=
  if stream.length < Leb128MagicStringSize then none
  else
    match rle32 (stream.drop Leb128MagicStringSize) with
    | none => none
    | some (_bytes_left, s1) => leb_read_list width count s1

/-- A stream whose 17 leading bytes are NOT the LEB128 magic string, followed
by a well-formed one-value payload (byte count 1, then the byte `5`). -/
def badLeb : List Nat := List.replicate 17 0 ++ (wle32 1 ++ [5])

/-- C6 (counterexample to the claim as stated): on a stream whose magic
string does not match, decoding does not fail — `read_leb_128` returns no
success flag at all (it is `void` in C++), the magic is compared only by a
debug assertion, and release-build decoding proceeds and produces the value
`[5]`. -/
theorem read_leb_128_wrong_magic_decodes :
    leb_magic_ok badLeb = false ∧ read_leb_128 16 1 badLeb = some ([5], []) := by
  decide

/-- C6 (amended): `read_leb_128` never reports failure on a magic-string
mismatch: the magic bytes' content is checked only by a debug-build
assertion, and the decode result is entirely independent of it — any 17-byte
prefix yields exactly the result obtained with the correct magic string. (The
structural-hash and end-of-stream checks that do return false live in
`read_parameters`, not here.) -/
theorem read_leb_128_ignores_magic (width count : Nat) (magic payload : List Nat)
    (h : magic.length = Leb128MagicStringSize) :
    read_leb_128 width count (magic ++ payload) =
      read_leb_128 width count (Leb128MagicBytes ++ payload) := by
  unfold read_leb_128
  have hmb : Leb128MagicBytes.length = Leb128MagicStringSize := by decide
  have hm : (magic ++ payload).length = Leb128MagicStringSize + payload.length := by
    rw [List.length_append, h]
  have hmb2 : (Leb128MagicBytes ++ payload).length =
      Leb128MagicStringSize + payload.length := by
    rw [List.length_append, hmb]
  have hd1 : (magic ++ payload).drop Leb128MagicStringSize = payload := by
    rw [← h]
    exact List.drop_left _ _
  have hd2 : (Leb128MagicBytes ++ payload).drop Leb128MagicStringSize = payload := by
    rw [← hmb]
    exact List.drop_left _ _
  rw [hm, hmb2, hd1, hd2]

/-- Witness for C6 (amended) at the all-zero 17-byte prefix and the one-value
payload of `badLeb`. -/
theorem read_leb_128_ignores_magic_witness :
    read_leb_128 16 1 (List.replicate 17 0 ++ (wle32 1 ++ [5])) =
      read_leb_128 16 1 (Leb128MagicBytes ++ (wle32 1 ++ [5])) :=
  read_leb_128_ignores_magic 16 1 (List.replicate 17 0) (wle32 1 ++ [5]) (by decide)

end HypnoS.NNUE

namespace HypnoS

/-! ## The trace diagnostic (Eval::trace, NNUE::trace) -/

/-- The thread fields `Eval::trace` writes (thread.h:62-69):
`bestValue`, `rootSimpleEval` and the per-side `optimism`. -/
structure ThreadState where
  bestValue : Int
  rootSimpleEval : Int
  optimism : Color → Int

/-- The state `Eval::trace` / `NNUE::trace` can touch: whether the side to
move is in check, the board occupancy (piece code per square, `0` for
`NO_PIECE`, `type_of(pc) = pc % 8`, `KING = 6`), the thread fields, and the
Big accumulator's per-perspective `computed` flags of the current
`StateInfo`. -/
structure TraceState where
  checkers : Bool
  board : Fin 64 → Nat
  thread : ThreadState
  accComputed : Color → Bool

/-- `Position::remove_piece(s)` (position.h:371-380) restricted to the board
array: the square becomes empty. -/
def removePiece (b : Fin 64 → Nat) (sq : Fin 64) : Fin 64 → Nat :=
  fun s => if s = sq then 0 else b s

/-- `Position::put_piece(pc, s)` (position.h:362-369) restricted to the board
array: the square holds `pc` again. -/
def putPiece (b : Fin 64 → Nat) (pc : Nat) (sq : Fin 64) : Fin 64 → Nat :=
  fun s => if s = sq then pc else b s

/-- One square of the piece-value loop of `NNUE::trace`
(evaluate_nnue.cpp:356-381): for a non-king piece, remove it, invalidate both
Big-accumulator flags, evaluate (whose `transform` recomputes the Big
accumulator for both perspectives, setting the flags again — the accumulator
contract of the spec, the transformer header being absent from `src/`), put
the piece back and invalidate the flags once more; other squares are
untouched. -/
def nnue_trace_square (st : TraceState) (sq : Fin 64) : TraceState :=
  let pc := st.board sq
  if pc ≠ 0 ∧ pc % 8 ≠ 6 then
    let st1 := { st with board := removePiece st.board sq,
                         accComputed := fun _ => false }
    let st2 := { st1 with accComputed := fun _ => true }
    { st2 with board := putPiece st2.board pc sq,
               accComputed := fun _ => false }
  else st

/-- The state effect of `NNUE::trace(pos)` (evaluate_nnue.cpp:327-418): the
base evaluation (line 353) recomputes the Big accumulator, then the
differential piece-value loop runs over all 64 squares, and finally
`trace_evaluate` (line 388) transforms every bucket on the restored board,
recomputing the Big accumulator again — so the loop's invalidations are
transient (the board rendering and the bucket table are pure). -/
def nnue_trace (st : TraceState) : TraceState :=
  let st0 := { st with accComputed := fun _ => true }
  let st1 := (List.finRange 64).foldl nnue_trace_square st0
  { st1 with accComputed := fun _ => true }

/-- The state effect of `Eval::trace(pos)` (evaluate.cpp:226-255): an early
return when in check; otherwise `bestValue`, `rootSimpleEval` and both
`optimism` entries are reset to `VALUE_ZERO`, then `NNUE::trace` runs, then
`NNUE::evaluate<Big>` and `Eval::evaluate` (evaluate.cpp:244-248) evaluate
the restored board, leaving the Big accumulator recomputed. -/
def eval_trace (st : TraceState) : TraceState :=
  if st.checkers then st
  else
    let st1 := { st with thread := { bestValue := 0, rootSimpleEval := 0,
                                     optimism := fun _ => 0 } }
    let st2 := nnue_trace st1
    { st2 with accComputed := fun _ => true }

/-- Helper: one loop step restores the board array exactly. -/
theorem nnue_trace_square_board (st : TraceState) (sq : Fin 64) :
    (nnue_trace_square st sq).board = st.board := by
  unfold nnue_trace_square putPiece removePiece
  dsimp only
  split
  · next hpc =>
      funext s
      dsimp only
      by_cases hs : s = sq
      · subst hs
        simp
      · simp [hs]
  · rfl

/-- Helper: one loop step leaves the thread fields alone. -/
theorem nnue_trace_square_thread (st : TraceState) (sq : Fin 64) :
    (nnue_trace_square st sq).thread = st.thread := by
  unfold nnue_trace_square
  dsimp only
  split <;> rfl

/-- Helper: the piece-value loop restores the board array. -/
theorem nnue_trace_loop_board (l : List (Fin 64)) (st : TraceState) :
    (l.foldl nnue_trace_square st).board = st.board := by
  induction l generalizing st with
  | nil => rfl
  | cons a t ih =>
      rw [List.foldl_cons, ih, nnue_trace_square_board]

/-- Helper: the piece-value loop leaves the thread fields alone. -/
theorem nnue_trace_loop_thread (l : List (Fin 64)) (st : TraceState) :
    (l.foldl nnue_trace_square st).thread = st.thread := by
  induction l generalizing st with
  | nil => rfl
  | cons a t ih =>
      rw [List.foldl_cons, ih, nnue_trace_square_thread]

/-- Helper: the whole of `NNUE::trace` restores the board array. -/
theorem nnue_trace_board (st : TraceState) : (nnue_trace st).board = st.board := by
  unfold nnue_trace
  dsimp only
  rw [nnue_trace_loop_board]

/-- Helper: the whole of `NNUE::trace` leaves the thread fields alone. -/
theorem nnue_trace_thread (st : TraceState) : (nnue_trace st).thread = st.thread := by
  unfold nnue_trace
  dsimp only
  rw [nnue_trace_loop_thread]

/-- A position (not in check) whose thread carries nonzero optimism before
tracing. -/
def tracePos : TraceState :=
  { checkers := false
    board := fun _ => 0
    thread := { bestValue := 3, rootSimpleEval := 7, optimism := fun _ => 10 }
    accComputed := fun _ => true }

/-- C8 (counterexample to the claim as stated): `Eval::trace` is not free of
side effects on the evaluation state — it resets the thread's per-side
optimism (here from 10 to 0) instead of leaving it unchanged. -/
theorem trace_changes_optimism :
    tracePos.checkers = false ∧
      (eval_trace tracePos).thread.optimism Color.WHITE ≠
        tracePos.thread.optimism Color.WHITE := by
  refine ⟨rfl, ?_⟩
  have h : (eval_trace tracePos).thread =
      { bestValue := 0, rootSimpleEval := 0, optimism := fun _ => 0 } := by
    unfold eval_trace
    rw [if_neg (by decide)]
    dsimp only
    rw [nnue_trace_thread]
  rw [h]
  decide

/-- C8 (amended): for a position not in check, `Eval::trace` restores the
board contents exactly (every piece back on its square) and the Accumulator
invalidation is transient — the Big accumulator is recomputed before
returning, its computed flags ending valid — but `trace` does NOT preserve
the thread's evaluation state read by `evaluate`: it leaves `bestValue`,
`rootSimpleEval` and both per-side optimism values reset to zero. -/
theorem trace_restores_board_resets_thread (st : TraceState)
    (h : st.checkers = false) :
    (eval_trace st).board = st.board ∧
      (∀ c, (eval_trace st).accComputed c = true) ∧
      (eval_trace st).thread.bestValue = 0 ∧
      (eval_trace st).thread.rootSimpleEval = 0 ∧
      (∀ c, (eval_trace st).thread.optimism c = 0) := by
  unfold eval_trace
  rw [if_neg (by simp [h])]
  dsimp only
  refine ⟨?_, ?_, ?_, ?_, ?_⟩
  · rw [nnue_trace_board]
  · intro c
    rfl
  · rw [nnue_trace_thread]
  · rw [nnue_trace_thread]
  · intro c
    rw [nnue_trace_thread]

/-- Witness for C8 (amended) at the concrete state `tracePos`. -/
theorem trace_restores_board_resets_thread_witness :
    (eval_trace tracePos).board = tracePos.board ∧
      (∀ c, (eval_trace tracePos).accComputed c = true) ∧
      (eval_trace tracePos).thread.bestValue = 0 ∧
      (eval_trace tracePos).thread.rootSimpleEval = 0 ∧
      (∀ c, (eval_trace tracePos).thread.optimism c = 0) :=
  trace_restores_board_resets_thread tracePos rfl

end HypnoS
